import Mathlib

/-!
Shallow embedding of `recommendations/faiss_utils/manager.py`
(`FAISSIndexManager`) and of the FAISS index operations it delegates to.

Vectors are modelled as lists of rationals (exact model of the float32
rows of the numpy arrays the manager passes around).  A FAISS index is a
tagged variant: `IndexFlatL2` or `IndexIVFPQ`, each carrying the vectors
it holds in insertion order.  Errors raised by the python code
(`ValueError` for an uninitialized manager, the dimension assertions of
the FAISS python wrappers, numpy shape errors on `concatenate`, read
failures in `load_index`) are modelled as values of `FaissErr`.
Mutating manager methods return the post-call manager state together
with the raised error, if any, so that partial mutation before an
exception is visible.
-/

/-- A row of a numpy float32 matrix: one embedding vector. -/
abbrev Vec := List ℚ

/-- Errors surfaced by the manager or by the FAISS/numpy layer it calls:
`notInitialized` models `ValueError("Index not initialized...")`,
`dimensionMismatch` models the `assert d == self.d` of the FAISS python
wrappers and numpy shape mismatches on `concatenate`,
`notTrained` models the FAISS "Index not trained" runtime error, and
`ioError` models an exception escaping `load_index` (missing file or
unparseable artifact alike). -/
inductive FaissErr where
  | notInitialized
  | dimensionMismatch
  | notTrained
  | ioError
  deriving DecidableEq, Repr

/-- A FAISS index, as the manager uses it: either `IndexFlatL2` or
`IndexIVFPQ`.  Both carry the dimension `d` fixed at construction and
the vectors held, in insertion order (position `i` in the list is FAISS
id `i`).  The clustered variant also records its `nlist`/`nbits`
construction parameters and its trained flag; the quantizer internals
(cluster centroids, PQ codebooks of the 8 sub-quantizers) are abstracted
away: training is modelled as setting the trained flag. -/
inductive Index where
  | flat (d : Nat) (vecs : List Vec)
  | ivfpq (d nlist nbits : Nat) (trained : Bool) (vecs : List Vec)
  deriving DecidableEq, Repr

/-- Dimension the index was constructed with (`self.d` in FAISS). -/
def Index.dim : Index → Nat
  | .flat d _ => d
  | .ivfpq d _ _ _ _ => d

/-- Vectors held by the index, in insertion order. -/
def Index.vecs : Index → List Vec
  | .flat _ v => v
  | .ivfpq _ _ _ _ v => v

/-- Number of vectors held (`index.ntotal`). -/
def Index.ntotal (i : Index) : Nat := i.vecs.length

/-- Whether the index is the clustered (`IndexIVFPQ`) variant. -/
def Index.isIvfpq : Index → Bool
  | .flat _ _ => false
  | .ivfpq _ _ _ _ _ => true

/-- The FAISS python wrapper's shape check: every row of the batch must
have width `d` (`assert d == self.d` on an `n × d` input). -/
def dimsOk (d : Nat) (batch : List Vec) : Bool :=
  batch.all (fun v => v.length = d)

/-- `index.add(batch)`: the wrapper checks the width, then `IndexFlatL2`
appends; `IndexIVFPQ` raises "Index not trained" unless trained. -/
def Index.add (i : Index) (batch : List Vec) : Except FaissErr Index :=
  if dimsOk i.dim batch then
    match i with
    | .flat d vecs => .ok (.flat d (vecs ++ batch))
    | .ivfpq d nl nb tr vecs =>
        if tr then .ok (.ivfpq d nl nb tr (vecs ++ batch)) else .error .notTrained
  else .error .dimensionMismatch

/-- `index.train(batch)`: the wrapper checks the width; for `IndexIVFPQ`
the clustering/codebook pass is abstracted to setting the trained flag
(faithful for valid configurations); for `IndexFlatL2` it is a no-op. -/
def Index.train (i : Index) (batch : List Vec) : Except FaissErr Index :=
  if dimsOk i.dim batch then
    match i with
    | .flat d vecs => .ok (.flat d vecs)
    | .ivfpq d nl nb _ vecs => .ok (.ivfpq d nl nb true vecs)
  else .error .dimensionMismatch

/-- Exact value of `FLT_MAX`, the distance FAISS reports in padding
slots when fewer than `k` neighbors exist. -/
def floatMax : ℚ := 2 ^ 128 - 2 ^ 104

/-- Squared Euclidean distance between two rows, the metric of
`IndexFlatL2`. -/
def sqDist (u v : Vec) : ℚ :=
  (List.zipWith (fun a b => (a - b) * (a - b)) u v).sum

/-- Candidate list for a brute-force scan: each stored vector paired as
(distance to the query, insertion position). -/
def flatCandidates (vecs : List Vec) (q : Vec) : List (ℚ × Nat) :=
  vecs.enum.map (fun p => (sqDist q p.2, p.1))

/-- Comparison used to rank candidates: ascending distance, ties broken
by ascending insertion position. -/
def entryLe (p q : ℚ × Nat) : Bool :=
  p.1 < q.1 || (p.1 = q.1 && p.2 ≤ q.2)

/-- The candidate ranking as a decidable relation, used to sort the
brute-force scan results. -/
def entryLeP (p q : ℚ × Nat) : Prop := entryLe p q = true

instance : DecidableRel entryLeP :=
  fun a b => instDecidableEqBool (entryLe a b) true

/-- One result row of `IndexFlatL2.search`: the `min k ntotal` best
candidates in ascending (distance, position) order, padded to exactly
`k` slots with `(FLT_MAX, -1)` as FAISS does when `ntotal < k`. -/
def flatSearchRow (vecs : List Vec) (k : Nat) (q : Vec) : List (ℚ × Int) :=
  let best := ((flatCandidates vecs q).insertionSort entryLeP).take k
  best.map (fun p => (p.1, (p.2 : Int))) ++
    List.replicate (k - best.length) (floatMax, -1)

/-- Abstract model of the `IndexIVFPQ` search routine: given the index,
the configured `nprobe`, `k` and a query row it produces a result row.
The scan of the `nprobe` nearest clusters over compressed codes is a
FAISS-internal approximate algorithm; manager-level theorems hold for
every such function, which is what the code guarantees (the manager only
forwards to `self.index.search`). -/
abbrev IvfpqSearchFn := Index → Nat → Nat → Vec → List (ℚ × Int)

/-- `index.search(queries, k)`: the wrapper checks the query width, an
untrained `IndexIVFPQ` raises, otherwise one result row per query row
(exact brute force for flat, the abstract routine `f` for clustered). -/
def Index.search (f : IvfpqSearchFn) (i : Index) (nprobe : Nat)
    (qs : List Vec) (k : Nat) : Except FaissErr (List (List (ℚ × Int))) :=
  if dimsOk i.dim qs then
    match i with
    | .flat _ vecs => .ok (qs.map (flatSearchRow vecs k))
    | .ivfpq d nl nb tr vecs =>
        if tr then .ok (qs.map (f (.ivfpq d nl nb tr vecs) nprobe k))
        else .error .notTrained
  else .error .dimensionMismatch

/-- `np.concatenate([a, b])`: fails with a shape `ValueError` (modelled
as `dimensionMismatch`) when a row of `a` and a row of `b` have
different widths. -/
def npConcat (a b : List Vec) : Except FaissErr (List Vec) :=
  if a.all (fun u => b.all (fun v => u.length = v.length)) then .ok (a ++ b)
  else .error .dimensionMismatch

/-- State of a `FAISSIndexManager`: the constructor parameters plus the
two mutable fields `self.index` and `self.embeddings` (the raw-vector
buffer, `None` or a numpy matrix).  `use_gpu` is omitted: the GPU path
only wraps the same index and falls back to CPU on failure. -/
structure Manager where
  embedding_dim : Nat
  min_data_size_for_ivf : Nat
  nlist : Nat
  nprobe : Nat
  nbits : Nat
  index : Option Index
  embeddings : Option (List Vec)
  deriving DecidableEq, Repr

/-- `FAISSIndexManager(embedding_dim, min_data_size_for_ivf, nlist,
nprobe, nbits)`: a freshly constructed manager, no index, no buffer. -/
def newManager (d T nl np nb : Nat) : Manager :=
  { embedding_dim := d, min_data_size_for_ivf := T, nlist := nl,
    nprobe := np, nbits := nb, index := none, embeddings := none }

/-- `create_index(data_size)`: `IndexFlatL2` when
`data_size < min_data_size_for_ivf`, else `IndexIVFPQ` (untrained,
built over a flat quantizer with the configured `nlist`/`nbits`). -/
def Manager.create_index (m : Manager) (data_size : Nat) : Index :=
  if data_size < m.min_data_size_for_ivf then .flat m.embedding_dim []
  else .ivfpq m.embedding_dim m.nlist m.nbits false []

/-- `init_index(embeddings)`: builds the index for the batch size,
trains it if it is an untrained `IndexIVFPQ`, adds the batch and stores
it as the raw-vector buffer.  Each python assignment to `self.index` is
reflected even when a later step raises. -/
def Manager.init_index (m : Manager) (embs : List Vec) :
    Manager × Option FaissErr :=
  let idx := m.create_index embs.length
  match idx with
  | .ivfpq d nl nb _ vecs =>
      match Index.train (.ivfpq d nl nb false vecs) embs with
      | .error e => ({ m with index := some (.ivfpq d nl nb false vecs) }, some e)
      | .ok idx1 =>
          match idx1.add embs with
          | .error e => ({ m with index := some idx1 }, some e)
          | .ok idx2 =>
              ({ m with index := some idx2, embeddings := some embs }, none)
  | .flat d vecs =>
      match Index.add (.flat d vecs) embs with
      | .error e => ({ m with index := some (.flat d vecs) }, some e)
      | .ok idx2 =>
          ({ m with index := some idx2, embeddings := some embs }, none)

/-- Normal data addition tail of `add_to_index`: `self.index.add`, then
the raw-vector buffer is set (replacing `None`) or concatenated; a
numpy failure there leaves the index already grown. -/
def Manager.addPlain (m : Manager) (idx : Index) (embs : List Vec) :
    Manager × Option FaissErr :=
  match idx.add embs with
  | .error e => (m, some e)
  | .ok idx1 =>
      match m.embeddings with
      | none => ({ m with index := some idx1, embeddings := some embs }, none)
      | some old =>
          match npConcat old embs with
          | .error e => ({ m with index := some idx1 }, some e)
          | .ok all => ({ m with index := some idx1, embeddings := some all }, none)

/-- `add_to_index(embeddings)`: raises when uninitialized; when the
current index is `IndexFlatL2` and the buffer size plus the batch size
reaches `min_data_size_for_ivf`, rebuilds through `init_index` on the
concatenation of the buffer (or just the batch when the buffer is
`None`) with the batch; otherwise performs the normal addition. -/
def Manager.add_to_index (m : Manager) (embs : List Vec) :
    Manager × Option FaissErr :=
  match m.index with
  | none => (m, some .notInitialized)
  | some idx =>
      match idx with
      | .flat d vecs =>
          let stored := match m.embeddings with
            | some e => e.length
            | none => 0
          if stored + embs.length ≥ m.min_data_size_for_ivf then
            match m.embeddings with
            | some old =>
                match npConcat old embs with
                | .error e => (m, some e)
                | .ok all => m.init_index all
            | none => m.init_index embs
          else m.addPlain (.flat d vecs) embs
      | .ivfpq d nl nb tr vecs => m.addPlain (.ivfpq d nl nb tr vecs) embs

/-- `search(query_embeddings, k)`: raises when uninitialized, sets
`nprobe` on an `IndexIVFPQ` and delegates to the index. -/
def Manager.search (f : IvfpqSearchFn) (m : Manager) (qs : List Vec)
    (k : Nat) : Except FaissErr (List (List (ℚ × Int))) :=
  match m.index with
  | none => .error .notInitialized
  | some idx => idx.search f m.nprobe qs k

/-- Number of vectors the index holds (`0` when uninitialized). -/
def Manager.indexCount (m : Manager) : Nat :=
  match m.index with
  | none => 0
  | some i => i.ntotal

/-- Number of vectors the raw-vector buffer holds (`0` when `None`). -/
def Manager.storeCount (m : Manager) : Nat :=
  match m.embeddings with
  | none => 0
  | some e => e.length

/-- Whether the manager currently holds the clustered variant. -/
def Manager.isClustered (m : Manager) : Bool :=
  match m.index with
  | some i => i.isIvfpq
  | none => false

/-- What `load_index` can find at one on-disk path: no file, a file it
cannot parse, or a parseable artifact of type `α`. -/
inductive FileState (α : Type) where
  | absent
  | corrupt
  | file (a : α)
  deriving DecidableEq, Repr

/-- The three paths `save_index`/`load_index` use for one snapshot
location `path`: the clustered pair (`path.index`, read by
`faiss.read_index`, and `path.embeddings.npy`, read by `np.load`) and
the plain file `path` holding a bare index. -/
structure Location where
  indexArtifact : FileState Index
  npyArtifact : FileState (List Vec)
  plainArtifact : FileState Index
  deriving DecidableEq, Repr

/-- What `save_index(path)` writes: for `IndexIVFPQ`, the index plus the
raw-vector buffer as a pair of artifacts; for `IndexFlatL2`, the bare
index at the plain path. -/
inductive Snapshot where
  | flatSnap (i : Index)
  | clusteredSnap (i : Index) (embs : Option (List Vec))
  deriving DecidableEq, Repr

/-- `save_index(path)`: raises "No index to save" when uninitialized,
otherwise serializes per variant (the write itself always succeeds). -/
def Manager.save_index (m : Manager) : Except FaissErr Snapshot :=
  match m.index with
  | none => .error .notInitialized
  | some i =>
      match i with
      | .ivfpq d nl nb tr vecs =>
          .ok (.clusteredSnap (.ivfpq d nl nb tr vecs) m.embeddings)
      | .flat d vecs => .ok (.flatSnap (.flat d vecs))

/-- On-disk contents of a fresh location after writing a snapshot.  A
clustered snapshot whose buffer was `None` stores a pickled `None` in
the `.npy` artifact, which the default `np.load` call cannot read back:
it behaves as a corrupt artifact on load. -/
def Snapshot.toLocation : Snapshot → Location
  | .flatSnap i => { indexArtifact := .absent, npyArtifact := .absent,
                     plainArtifact := .file i }
  | .clusteredSnap i (some e) => { indexArtifact := .file i,
                                   npyArtifact := .file e,
                                   plainArtifact := .absent }
  | .clusteredSnap i none => { indexArtifact := .file i,
                               npyArtifact := .corrupt,
                               plainArtifact := .absent }

/-- Fallback branch of `load_index` (the bare `except:` body): read a
plain index at `path` and clear the buffer; a missing file and an
unparseable file both raise, uncaught, out of `load_index`. -/
def Manager.loadFallback (m : Manager) (loc : Location) :
    Manager × Option FaissErr :=
  match loc.plainArtifact with
  | .file i => ({ m with index := some i, embeddings := none }, none)
  | .absent => (m, some .ioError)
  | .corrupt => (m, some .ioError)

/-- `load_index(path)`: try the clustered pair first; any failure there
falls back to the plain path — keeping an index already assigned from a
readable `path.index` even when `np.load` then fails. -/
def Manager.load_index (m : Manager) (loc : Location) :
    Manager × Option FaissErr :=
  match loc.indexArtifact with
  | .file i =>
      match loc.npyArtifact with
      | .file e =>
          ({ m with index := some i, embeddings := some e }, none)
      | .absent => Manager.loadFallback { m with index := some i } loc
      | .corrupt => Manager.loadFallback { m with index := some i } loc
  | .absent => m.loadFallback loc
  | .corrupt => m.loadFallback loc

/-- `load_index_from_git_lfs(repo_path, index_path)`: the git/LFS pulls
(`pullOk` models their success) and `load_index` run inside one
`try/except` that catches every exception and reports a bare boolean,
keeping whatever partial state `load_index` left behind. -/
def Manager.load_index_from_git_lfs (m : Manager) (pullOk : Bool)
    (loc : Location) : Manager × Bool :=
  if pullOk then
    match m.load_index loc with
    | (m1, none) => (m1, true)
    | (m1, some _) => (m1, false)
  else (m, false)

/-- One API call in a manager history: `init_index`, `add_to_index` or
`save_index` (which reads but does not change state). -/
inductive Op where
  | initOp (batch : List Vec)
  | addOp (batch : List Vec)
  | saveOp
  deriving DecidableEq, Repr

/-- Apply one call, yielding the post-call state and the error if the
call raised. -/
def applyOp (m : Manager) : Op → Manager × Option FaissErr
  | .initOp b => m.init_index b
  | .addOp b => m.add_to_index b
  | .saveOp =>
      match m.save_index with
      | .ok _ => (m, none)
      | .error e => (m, some e)

/-- Run a sequence of calls, stopping at the first raised error
(`none` when some call raised). -/
def runOk (m : Manager) : List Op → Option Manager
  | [] => some m
  | op :: rest =>
      match applyOp m op with
      | (m1, none) => runOk m1 rest
      | (_, some _) => none

instance {ε α : Type} [DecidableEq ε] [DecidableEq α] :
    DecidableEq (Except ε α)
  | .ok a, .ok b =>
      if h : a = b then .isTrue (by rw [h])
      else .isFalse (by intro hh; cases hh; exact h rfl)
  | .ok _, .error _ => .isFalse (by intro h; cases h)
  | .error _, .ok _ => .isFalse (by intro h; cases h)
  | .error e, .error e1 =>
      if h : e = e1 then .isTrue (by rw [h])
      else .isFalse (by intro hh; cases hh; exact h rfl)

/-- Trivial instantiation of the abstract clustered search routine, used
to evaluate manager operations at concrete inputs. -/
def ivfpqStub : IvfpqSearchFn := fun _ _ _ _ => []

/-- Result-row ordering: ascending distance, ties broken by ascending
neighbor position. -/
def lexLe (p r : ℚ × Int) : Prop :=
  p.1 < r.1 ∨ (p.1 = r.1 ∧ p.2 ≤ r.2)

/-- Exactness contract of one flat search row: writing `real` for its
genuine (non-padding) prefix of length `min k ntotal`, the row is sorted
by `lexLe`, every entry is the true squared distance to a stored vector
at the reported position, reported positions are pairwise distinct, and
every stored vector not reported ranks at or after every reported entry
in the `lexLe` order (so the row is the true `k` best). -/
def FlatSearchCorrect (vecs : List Vec) (q : Vec) (k : Nat) : Prop :=
  List.Pairwise lexLe ((flatSearchRow vecs k q).take (min k vecs.length)) ∧
  (∀ p ∈ (flatSearchRow vecs k q).take (min k vecs.length),
    ∃ (j : ℕ) (w : Vec), p.2 = (j : Int) ∧ vecs[j]? = some w ∧ p.1 = sqDist q w) ∧
  (((flatSearchRow vecs k q).take (min k vecs.length)).map Prod.snd).Nodup ∧
  (∀ (j : ℕ) (w : Vec), vecs[j]? = some w →
    (j : Int) ∉ ((flatSearchRow vecs k q).take (min k vecs.length)).map Prod.snd →
    ∀ p ∈ (flatSearchRow vecs k q).take (min k vecs.length),
      lexLe p (sqDist q w, (j : Int)))

/-- State invariant maintained by `init_index`/`add_to_index`/
`save_index` runs that raise no error: the index and the raw-vector
buffer hold the same number of vectors, the index was built for the
configured dimension, every buffered row has the configured width, and
a clustered manager always carries its buffer. -/
def ManagerInv (m : Manager) : Prop :=
  m.indexCount = m.storeCount ∧
  (∀ i, m.index = some i → i.dim = m.embedding_dim) ∧
  (∀ e, m.embeddings = some e → dimsOk m.embedding_dim e = true) ∧
  (m.isClustered = true → m.embeddings ≠ none)

/-! Helper lemmas about the brute-force scan of `IndexFlatL2`. -/

lemma sqDist_cons (a b : ℚ) (u v : Vec) :
    sqDist (a :: u) (b :: v) = (a - b) * (a - b) + sqDist u v := rfl

lemma sqDist_nonneg (u v : Vec) : 0 ≤ sqDist u v := by
  induction u generalizing v with
  | nil => simp [sqDist]
  | cons a u ih =>
      cases v with
      | nil => simp [sqDist]
      | cons b v =>
          rw [sqDist_cons]
          have h1 := mul_self_nonneg (a - b)
          have h2 := ih v
          linarith

lemma sqDist_self (v : Vec) : sqDist v v = 0 := by
  induction v with
  | nil => rfl
  | cons a u ih => rw [sqDist_cons]; simp [ih]

lemma sqDist_eq_zero {u v : Vec} (hlen : u.length = v.length)
    (h : sqDist u v = 0) : u = v := by
  induction u generalizing v with
  | nil => cases v with
      | nil => rfl
      | cons b v => simp at hlen
  | cons a u ih =>
      cases v with
      | nil => simp at hlen
      | cons b v =>
          rw [sqDist_cons] at h
          have h1 := mul_self_nonneg (a - b)
          have h2 := sqDist_nonneg u v
          have hab : (a - b) * (a - b) = 0 := by linarith
          have hu : sqDist u v = 0 := by linarith
          have : a - b = 0 := mul_self_eq_zero.mp hab
          have ha : a = b := by linarith
          have := ih (by simpa using hlen) hu
          rw [ha, this]

lemma entryLe_trans (a b c : ℚ × Nat) (hab : entryLe a b = true)
    (hbc : entryLe b c = true) : entryLe a c = true := by
  simp only [entryLe, Bool.or_eq_true, Bool.and_eq_true, decide_eq_true_eq] at *
  rcases hab with h1 | ⟨h1, h2⟩ <;> rcases hbc with h3 | ⟨h3, h4⟩
  · exact Or.inl (lt_trans h1 h3)
  · exact Or.inl (h3 ▸ h1)
  · exact Or.inl (h1 ▸ h3)
  · exact Or.inr ⟨h1.trans h3, Nat.le_trans h2 h4⟩

lemma entryLe_total (a b : ℚ × Nat) : (entryLe a b || entryLe b a) = true := by
  simp only [entryLe, Bool.or_eq_true, Bool.and_eq_true, decide_eq_true_eq]
  rcases lt_trichotomy a.1 b.1 with h | h | h
  · exact Or.inl (Or.inl h)
  · rcases Nat.le_total a.2 b.2 with h2 | h2
    · exact Or.inl (Or.inr ⟨h, h2⟩)
    · exact Or.inr (Or.inr ⟨h.symm, h2⟩)
  · exact Or.inr (Or.inl h)

lemma entryLe_refl (a : ℚ × Nat) : entryLe a a = true := by
  simp [entryLe]

lemma flatCandidates_length (vecs : List Vec) (q : Vec) :
    (flatCandidates vecs q).length = vecs.length := by
  simp [flatCandidates]

lemma flatCandidates_map_snd (vecs : List Vec) (q : Vec) :
    (flatCandidates vecs q).map Prod.snd = List.range vecs.length := by
  rw [flatCandidates, List.map_map]
  have : (Prod.snd ∘ fun p : ℕ × Vec => (sqDist q p.2, p.1)) = Prod.fst := by
    funext p; rfl
  rw [this, List.enum_map_fst]

lemma mem_flatCandidates {vecs : List Vec} {q : Vec} {c : ℚ × Nat}
    (h : c ∈ flatCandidates vecs q) :
    ∃ w, vecs[c.2]? = some w ∧ c.1 = sqDist q w := by
  rw [flatCandidates, List.mem_map] at h
  obtain ⟨p, hp, rfl⟩ := h
  obtain ⟨hlt, hx⟩ := List.mem_enum hp
  exact ⟨p.2, by rw [List.getElem?_eq_some]; exact ⟨hlt, hx.symm⟩, rfl⟩

lemma flatCandidates_mem {vecs : List Vec} {q : Vec} {j : ℕ} {w : Vec}
    (h : vecs[j]? = some w) : (sqDist q w, j) ∈ flatCandidates vecs q := by
  have henum : vecs.enum[j]? = some (j, w) := by
    rw [List.getElem?_enum, h]; rfl
  rw [List.getElem?_eq_some] at henum
  obtain ⟨hj, hget⟩ := henum
  have hmem : (j, w) ∈ vecs.enum := hget ▸ List.getElem_mem hj
  rw [flatCandidates, List.mem_map]
  exact ⟨(j, w), hmem, rfl⟩

lemma sorted_flat (vecs : List Vec) (q : Vec) :
    List.Pairwise (fun a b => entryLe a b = true)
      ((flatCandidates vecs q).insertionSort entryLeP) := by
  haveI : IsTotal (ℚ × Nat) entryLeP := ⟨fun a b => by
    cases hab : entryLe a b with
    | true => exact Or.inl hab
    | false =>
        right
        have h := entryLe_total a b
        rwa [hab, Bool.false_or] at h⟩
  haveI : IsTrans (ℚ × Nat) entryLeP := ⟨entryLe_trans⟩
  exact List.sorted_insertionSort entryLeP _

lemma perm_flat (vecs : List Vec) (q : Vec) :
    ((flatCandidates vecs q).insertionSort entryLeP).Perm (flatCandidates vecs q) :=
  List.perm_insertionSort entryLeP _

lemma sort_flat_length (vecs : List Vec) (q : Vec) :
    ((flatCandidates vecs q).insertionSort entryLeP).length = vecs.length := by
  rw [(perm_flat vecs q).length_eq, flatCandidates_length]

lemma flat_best_length (vecs : List Vec) (q : Vec) (k : Nat) :
    (((flatCandidates vecs q).insertionSort entryLeP).take k).length
      = min k vecs.length := by
  rw [List.length_take, sort_flat_length]

lemma flatSearchRow_take (vecs : List Vec) (q : Vec) (k : Nat) :
    (flatSearchRow vecs k q).take (min k vecs.length)
      = (((flatCandidates vecs q).insertionSort entryLeP).take k).map
          (fun p => (p.1, (p.2 : Int))) := by
  rw [flatSearchRow]
  exact List.take_left' (by rw [List.length_map, flat_best_length])

lemma flatSearchRow_drop (vecs : List Vec) (q : Vec) (k : Nat) :
    (flatSearchRow vecs k q).drop (min k vecs.length)
      = List.replicate (k - min k vecs.length) (floatMax, -1) := by
  rw [flatSearchRow]
  have hb := flat_best_length vecs q k
  rw [hb]
  exact List.drop_left' (by rw [List.length_map, hb])

lemma flatSearchRow_length (vecs : List Vec) (q : Vec) (k : Nat) :
    (flatSearchRow vecs k q).length = k := by
  rw [flatSearchRow]
  have hb := flat_best_length vecs q k
  rw [List.length_append, List.length_map, List.length_replicate, hb]
  omega

lemma entryLe_to_lexLe {a b : ℚ × Nat} (h : entryLe a b = true) :
    lexLe (a.1, (a.2 : Int)) (b.1, (b.2 : Int)) := by
  simp only [entryLe, Bool.or_eq_true, Bool.and_eq_true, decide_eq_true_eq] at h
  rcases h with h | ⟨h1, h2⟩
  · exact Or.inl h
  · refine Or.inr ⟨h1, ?_⟩
    show (a.2 : Int) ≤ (b.2 : Int)
    exact_mod_cast h2

lemma flatSearchCorrect_holds (vecs : List Vec) (q : Vec) (k : Nat) :
    FlatSearchCorrect vecs q k := by
  have hs := sorted_flat vecs q
  have hperm := perm_flat vecs q
  have htake := flatSearchRow_take vecs q k
  refine ⟨?_, ?_, ?_, ?_⟩
  · rw [htake]
    refine List.Pairwise.map _ (fun a b h => ?_)
      (List.Pairwise.sublist (List.take_sublist k _) hs)
    exact entryLe_to_lexLe h
  · intro p hp
    rw [htake, List.mem_map] at hp
    obtain ⟨c, hc, rfl⟩ := hp
    have hc2 : c ∈ flatCandidates vecs q :=
      hperm.mem_iff.mp (List.Sublist.mem hc (List.take_sublist k _))
    obtain ⟨w, hw, hd⟩ := mem_flatCandidates hc2
    exact ⟨c.2, w, rfl, hw, hd⟩
  · rw [htake, List.map_map]
    have hcomp : (Prod.snd ∘ fun p : ℚ × Nat => (p.1, (p.2 : Int)))
        = (fun n : ℕ => (n : Int)) ∘ Prod.snd := by
      funext p; rfl
    rw [hcomp, ← List.map_map]
    refine List.Nodup.map (fun a b h => by exact_mod_cast h) ?_
    refine List.Nodup.sublist (List.Sublist.map _ (List.take_sublist k _)) ?_
    rw [(hperm.map Prod.snd).nodup_iff, flatCandidates_map_snd]
    exact List.nodup_range _
  · intro j w hjw hnot p hp
    have hc0 : (sqDist q w, j) ∈ flatCandidates vecs q := flatCandidates_mem hjw
    have hc0s : (sqDist q w, j) ∈ (flatCandidates vecs q).insertionSort entryLeP :=
      hperm.mem_iff.mpr hc0
    have hsplit := List.take_append_drop k ((flatCandidates vecs q).insertionSort entryLeP)
    have hs2 : List.Pairwise (fun a b => entryLe a b = true)
        (((flatCandidates vecs q).insertionSort entryLeP).take k ++
         ((flatCandidates vecs q).insertionSort entryLeP).drop k) := by
      rw [hsplit]; exact hs
    obtain ⟨_, _, hcross⟩ := List.pairwise_append.mp hs2
    have hc0mem : (sqDist q w, j) ∈
        ((flatCandidates vecs q).insertionSort entryLeP).take k ++
        ((flatCandidates vecs q).insertionSort entryLeP).drop k := by
      rw [hsplit]; exact hc0s
    rcases List.mem_append.mp hc0mem with hin | hin
    · exfalso
      apply hnot
      rw [htake, List.map_map]
      rw [List.mem_map]
      exact ⟨(sqDist q w, j), hin, rfl⟩
    · rw [htake, List.mem_map] at hp
      obtain ⟨c, hc, rfl⟩ := hp
      have := hcross c hc _ hin
      exact entryLe_to_lexLe this

lemma flat_self_similarity {vecs : List Vec} {d : Nat}
    (hw : dimsOk d vecs = true) {p : ℕ} {w : Vec} (hp : vecs[p]? = some w) :
    ∃ (i : ℕ) (v : Vec), (flatSearchRow vecs 1 w).head? = some (0, (i : Int)) ∧
      vecs[i]? = some v ∧ v = w := by
  have hs := sorted_flat vecs w
  have hperm := perm_flat vecs w
  have hlen : 0 < ((flatCandidates vecs w).insertionSort entryLeP).length := by
    rw [sort_flat_length]
    rw [List.getElem?_eq_some] at hp
    exact Nat.lt_of_le_of_lt (Nat.zero_le p) hp.1
  obtain ⟨hd, tl, heq⟩ :=
    List.exists_cons_of_ne_nil (List.ne_nil_of_length_pos hlen)
  have hc0 : ((0 : ℚ), p) ∈ flatCandidates vecs w := by
    have := flatCandidates_mem (q := w) hp
    rwa [sqDist_self] at this
  have hc0s : ((0 : ℚ), p) ∈ (flatCandidates vecs w).insertionSort entryLeP :=
    hperm.mem_iff.mpr hc0
  have hhd : hd ∈ (flatCandidates vecs w).insertionSort entryLeP := by
    rw [heq]; exact List.mem_cons_self hd tl
  obtain ⟨v, hv, hdist⟩ := mem_flatCandidates (hperm.mem_iff.mp hhd)
  have hle : entryLe hd (0, p) = true := by
    rw [heq] at hc0s
    rcases List.mem_cons.mp hc0s with hcase | hcase
    · rw [← hcase]; exact entryLe_refl _
    · rw [heq] at hs
      exact (List.pairwise_cons.mp hs).1 _ hcase
  have hvmem : v ∈ vecs := by
    rw [List.getElem?_eq_some] at hv
    exact hv.2 ▸ List.getElem_mem hv.1
  have hvd : v.length = d := by
    rw [dimsOk, List.all_eq_true] at hw
    exact decide_eq_true_eq.mp (hw v hvmem)
  have hwd : w.length = d := by
    rw [dimsOk, List.all_eq_true] at hw
    rw [List.getElem?_eq_some] at hp
    exact decide_eq_true_eq.mp (hw w (hp.2 ▸ List.getElem_mem hp.1))
  have hnn : 0 ≤ hd.1 := hdist ▸ sqDist_nonneg w v
  have hzero : hd.1 = 0 := by
    simp only [entryLe, Bool.or_eq_true, Bool.and_eq_true,
      decide_eq_true_eq] at hle
    rcases hle with h | ⟨h, _⟩
    · linarith
    · exact h
  have hveq : v = w := by
    have : sqDist w v = 0 := by rw [← hdist, hzero]
    exact (sqDist_eq_zero (hwd.trans hvd.symm) this).symm
  refine ⟨hd.2, v, ?_, hv, hveq⟩
  rw [flatSearchRow, heq]
  simp [List.take, hzero]

/-! Helper lemmas about the manager state machine. -/

lemma Index.add_ok {i i1 : Index} {b : List Vec} (h : i.add b = .ok i1) :
    dimsOk i.dim b = true ∧ i1.dim = i.dim ∧ i1.vecs = i.vecs ++ b ∧
    i1.isIvfpq = i.isIvfpq := by
  unfold Index.add at h
  by_cases hd : dimsOk i.dim b = true
  · rw [if_pos hd] at h
    cases i with
    | flat d vecs =>
        cases h
        exact ⟨hd, rfl, rfl, rfl⟩
    | ivfpq d nl nb tr vecs =>
        cases tr with
        | true =>
            simp only [if_true] at h
            cases h
            exact ⟨hd, rfl, rfl, rfl⟩
        | false => simp at h
  · rw [if_neg hd] at h
    cases h

lemma init_index_eq (m : Manager) (b : List Vec) : m.init_index b =
    if b.length < m.min_data_size_for_ivf then
      (if dimsOk m.embedding_dim b = true then
        ({ m with index := some (.flat m.embedding_dim b),
                  embeddings := some b }, none)
       else ({ m with index := some (.flat m.embedding_dim []) },
             some .dimensionMismatch))
    else
      (if dimsOk m.embedding_dim b = true then
        ({ m with index := some (.ivfpq m.embedding_dim m.nlist m.nbits true b),
                  embeddings := some b }, none)
       else ({ m with index := some (.ivfpq m.embedding_dim m.nlist m.nbits false []) },
             some .dimensionMismatch)) := by
  by_cases hlt : b.length < m.min_data_size_for_ivf <;>
    by_cases hd : dimsOk m.embedding_dim b = true <;>
      simp [Manager.init_index, Manager.create_index, Index.add, Index.train,
        hlt, hd, Index.dim]

lemma init_index_ok_inv {m m1 : Manager} {b : List Vec}
    (h : m.init_index b = (m1, none)) : ManagerInv m1 ∧
      m1.embeddings = some b ∧ m1.embedding_dim = m.embedding_dim ∧
      m1.min_data_size_for_ivf = m.min_data_size_for_ivf := by
  rw [init_index_eq] at h
  by_cases hlt : b.length < m.min_data_size_for_ivf <;>
    by_cases hd : dimsOk m.embedding_dim b = true <;>
      simp only [hlt, hd, if_true, if_false, if_pos, if_neg] at h <;>
        simp at h
  · obtain ⟨rfl, _⟩ := h
    refine ⟨⟨rfl, ?_, ?_, ?_⟩, rfl, rfl, rfl⟩
    · intro i hi
      cases hi
      rfl
    · intro e he
      cases he
      exact hd
    · intro hc
      simp [Manager.isClustered, Index.isIvfpq] at hc
  · obtain ⟨rfl, _⟩ := h
    refine ⟨⟨rfl, ?_, ?_, ?_⟩, rfl, rfl, rfl⟩
    · intro i hi
      cases hi
      rfl
    · intro e he
      cases he
      exact hd
    · intro _
      simp

lemma addPlain_ok_inv {m m1 : Manager} {idx : Index} {b : List Vec}
    (hm : ManagerInv m) (hidx : m.index = some idx)
    (h : m.addPlain idx b = (m1, none)) : ManagerInv m1 := by
  obtain ⟨hcount, hdim, hwidths, hclust⟩ := hm
  unfold Manager.addPlain at h
  cases hadd : idx.add b with
  | error e => rw [hadd] at h; cases h
  | ok idx1 =>
      rw [hadd] at h
      obtain ⟨hd, hdim1, hvecs1, hivf1⟩ := Index.add_ok hadd
      have hdimidx : idx.dim = m.embedding_dim := hdim idx hidx
      cases hemb : m.embeddings with
      | none =>
          rw [hemb] at h
          cases h
          have hcnt0 : idx.ntotal = 0 := by
            simp only [Manager.indexCount, Manager.storeCount, hidx, hemb] at hcount
            exact hcount
          refine ⟨?_, ?_, ?_, ?_⟩
          · show idx1.ntotal = b.length
            rw [Index.ntotal, hvecs1, List.length_append]
            rw [Index.ntotal] at hcnt0
            omega
          · intro i hi
            cases hi
            rw [hdim1, hdimidx]
          · intro e he
            cases he
            rw [← hdimidx]
            exact hd
          · intro _
            simp
      | some old =>
          rw [hemb] at h
          have hcOk : (old.all fun u => b.all fun v => u.length = v.length) = true := by
            rw [List.all_eq_true]
            intro u hu
            rw [List.all_eq_true]
            intro v hv
            have h1 : u.length = m.embedding_dim := by
              have := hwidths old hemb
              rw [dimsOk, List.all_eq_true] at this
              exact decide_eq_true_eq.mp (this u hu)
            have h2 : v.length = m.embedding_dim := by
              rw [← hdimidx]
              rw [dimsOk, List.all_eq_true] at hd
              exact decide_eq_true_eq.mp (hd v hv)
            rw [h1, h2]
            exact decide_eq_true_eq.mpr rfl
          have hcc : npConcat old b = .ok (old ++ b) := by
            unfold npConcat
            rw [if_pos hcOk]
          simp only [hadd, hemb, hcc] at h
          cases h
          refine ⟨?_, ?_, ?_, ?_⟩
          · show idx1.ntotal = (old ++ b).length
            simp only [Manager.indexCount, Manager.storeCount, hidx, hemb] at hcount
            rw [Index.ntotal, hvecs1, List.length_append, List.length_append]
            rw [Index.ntotal] at hcount
            omega
          · intro i hi
            cases hi
            rw [hdim1, hdimidx]
          · intro e he
            cases he
            rw [dimsOk, List.all_eq_true]
            intro v hv
            rcases List.mem_append.mp hv with hv1 | hv1
            · have := hwidths old hemb
              rw [dimsOk, List.all_eq_true] at this
              exact this v hv1
            · rw [dimsOk, List.all_eq_true] at hd
              rw [← hdimidx]
              exact hd v hv1
          · intro _
            simp

lemma add_to_index_ok_inv {m m1 : Manager} {b : List Vec}
    (hm : ManagerInv m) (h : m.add_to_index b = (m1, none)) : ManagerInv m1 := by
  unfold Manager.add_to_index at h
  cases hidx : m.index with
  | none => rw [hidx] at h; cases h
  | some idx =>
      rw [hidx] at h
      cases idx with
      | flat d vecs =>
          cases hemb : m.embeddings with
          | some old =>
              simp only [hemb] at h
              by_cases hth : old.length + b.length ≥ m.min_data_size_for_ivf
              · rw [if_pos hth] at h
                cases hcc : npConcat old b with
                | error e => rw [hcc] at h; cases h
                | ok all =>
                    rw [hcc] at h
                    exact (init_index_ok_inv h).1
              · rw [if_neg hth] at h
                exact addPlain_ok_inv hm hidx h
          | none =>
              simp only [hemb] at h
              by_cases hth : 0 + b.length ≥ m.min_data_size_for_ivf
              · rw [if_pos hth] at h
                exact (init_index_ok_inv h).1
              · rw [if_neg hth] at h
                exact addPlain_ok_inv hm hidx h
      | ivfpq d nl nb tr vecs =>
          exact addPlain_ok_inv hm hidx h

lemma applyOp_ok_inv {m m1 : Manager} {op : Op}
    (hm : ManagerInv m) (h : applyOp m op = (m1, none)) : ManagerInv m1 := by
  cases op with
  | initOp b => exact (init_index_ok_inv h).1
  | addOp b => exact add_to_index_ok_inv hm h
  | saveOp =>
      unfold applyOp at h
      cases hs : m.save_index with
      | ok s => rw [hs] at h; cases h; exact hm
      | error e => rw [hs] at h; cases h

lemma runOk_inv : ∀ (ops : List Op) (m m1 : Manager),
    ManagerInv m → runOk m ops = some m1 → ManagerInv m1 := by
  intro ops
  induction ops with
  | nil =>
      intro m m1 hm h
      cases h
      exact hm
  | cons op rest ih =>
      intro m m1 hm h
      unfold runOk at h
      cases happ : applyOp m op with
      | mk m2 e =>
          rw [happ] at h
          cases e with
          | none => exact ih m2 m1 (applyOp_ok_inv hm happ) h
          | some e1 => cases h

lemma newManager_inv (d T nl np nb : Nat) : ManagerInv (newManager d T nl np nb) := by
  refine ⟨rfl, ?_, ?_, ?_⟩
  · intro i hi
    cases hi
  · intro e he
    cases he
  · intro hc
    simp [Manager.isClustered, newManager] at hc

lemma clustered_stays_clustered (m : Manager) (b : List Vec)
    (h : m.isClustered = true) : ((m.add_to_index b).1).isClustered = true := by
  unfold Manager.isClustered at h
  cases hidx : m.index with
  | none => rw [hidx] at h; cases h
  | some idx =>
      rw [hidx] at h
      cases idx with
      | flat d vecs => simp [Index.isIvfpq] at h
      | ivfpq d nl nb tr vecs =>
          unfold Manager.add_to_index
          rw [hidx]
          unfold Manager.addPlain
          cases hadd : Index.add (.ivfpq d nl nb tr vecs) b with
          | error e =>
              simp only [hadd]
              unfold Manager.isClustered
              rw [hidx]
              exact h
          | ok idx1 =>
              obtain ⟨_, _, _, hivf⟩ := Index.add_ok hadd
              simp only [hadd]
              cases hemb : m.embeddings with
              | none =>
                  simp only [hemb, Manager.isClustered]
                  rw [hivf]
                  exact h
              | some old =>
                  simp only [hemb]
                  cases hcc : npConcat old b with
                  | error e =>
                      simp only [hcc, Manager.isClustered]
                      rw [hivf]
                      exact h
                  | ok all =>
                      simp only [hcc, Manager.isClustered]
                      rw [hivf]
                      exact h

lemma dimsOk_false {d : Nat} {batch : List Vec}
    (h : ∃ v ∈ batch, v.length ≠ d) : dimsOk d batch = false := by
  obtain ⟨v, hv, hne⟩ := h
  cases hall : dimsOk d batch with
  | false => rfl
  | true =>
      exfalso
      rw [dimsOk, List.all_eq_true] at hall
      exact hne (decide_eq_true_eq.mp (hall v hv))

/-- C6: on a manager that has not been initialized (`self.index is None`),
both `add_to_index` and `search` raise the typed not-initialized
`ValueError` to the immediate caller, and the failed call leaves the
manager state unchanged. -/
theorem C6_uninitialized_typed_failure (f : IvfpqSearchFn) (m : Manager)
    (b qs : List Vec) (k : Nat) (h : m.index = none) :
    m.add_to_index b = (m, some FaissErr.notInitialized) ∧
    m.search f qs k = .error FaissErr.notInitialized := by
  constructor
  · unfold Manager.add_to_index
    rw [h]
  · unfold Manager.search
    rw [h]

/-- Witness for C6 at a freshly constructed manager. -/
theorem C6_witness :
    (newManager 8 2 1 10 1).index = none ∧
    ((newManager 8 2 1 10 1).add_to_index [[0, 0, 0, 0, 0, 0, 0, 0]]
        = (newManager 8 2 1 10 1, some FaissErr.notInitialized) ∧
      (newManager 8 2 1 10 1).search ivfpqStub [[0, 0, 0, 0, 0, 0, 0, 0]] 3
        = .error FaissErr.notInitialized) :=
  ⟨rfl, C6_uninitialized_typed_failure ivfpqStub _ _ _ 3 rfl⟩

/-- C8 counterexample: at a location holding no snapshot at all,
`load_index` raises (`ioError`) exactly as it does at a location holding
a corrupted artifact — there is no explicit not-found result — and the
git-LFS loader reports a bare `False` for the missing snapshot. -/
theorem C8_counterexample :
    (newManager 128 10000 100 10 8).load_index
        { indexArtifact := .absent, npyArtifact := .absent,
          plainArtifact := .absent }
      = (newManager 128 10000 100 10 8, some FaissErr.ioError) ∧
    (newManager 128 10000 100 10 8).load_index
        { indexArtifact := .absent, npyArtifact := .absent,
          plainArtifact := .corrupt }
      = (newManager 128 10000 100 10 8, some FaissErr.ioError) ∧
    ((newManager 128 10000 100 10 8).load_index_from_git_lfs true
        { indexArtifact := .absent, npyArtifact := .absent,
          plainArtifact := .absent }).2 = false :=
  ⟨rfl, rfl, rfl⟩

/-- C8 amended: whenever neither the clustered pair nor the plain
artifact is readable — in particular when the snapshot is simply
missing — `load_index` raises the same `ioError` as on corruption, and
`load_index_from_git_lfs` swallows any failure (transport failure,
absence, or corruption alike) into the boolean `false`. -/
theorem C8_load_conflates_absence (m : Manager) (loc : Location)
    (hplain : loc.plainArtifact = .absent ∨ loc.plainArtifact = .corrupt)
    (hidx : loc.indexArtifact = .absent ∨ loc.indexArtifact = .corrupt) :
    m.load_index loc = (m, some FaissErr.ioError) ∧
    m.load_index_from_git_lfs true loc = (m, false) ∧
    m.load_index_from_git_lfs false loc = (m, false) := by
  have h1 : m.load_index loc = (m, some FaissErr.ioError) := by
    unfold Manager.load_index
    rcases hidx with h | h <;> rw [h] <;>
      · unfold Manager.loadFallback
        rcases hplain with h2 | h2 <;> rw [h2]
  refine ⟨h1, ?_, rfl⟩
  unfold Manager.load_index_from_git_lfs
  rw [if_pos rfl, h1]

/-- Witness for C8 amended at an entirely empty location. -/
theorem C8_witness :
    ((Location.mk .absent .absent .absent).plainArtifact = .absent ∨
      (Location.mk .absent .absent .absent).plainArtifact = .corrupt) ∧
    ((Location.mk .absent .absent .absent).indexArtifact = .absent ∨
      (Location.mk .absent .absent .absent).indexArtifact = .corrupt) ∧
    ((newManager 128 10000 100 10 8).load_index
        (Location.mk .absent .absent .absent)
      = (newManager 128 10000 100 10 8, some FaissErr.ioError) ∧
     (newManager 128 10000 100 10 8).load_index_from_git_lfs true
        (Location.mk .absent .absent .absent)
      = (newManager 128 10000 100 10 8, false) ∧
     (newManager 128 10000 100 10 8).load_index_from_git_lfs false
        (Location.mk .absent .absent .absent)
      = (newManager 128 10000 100 10 8, false)) :=
  ⟨Or.inl rfl, Or.inl rfl,
    C8_load_conflates_absence (newManager 128 10000 100 10 8)
      (Location.mk .absent .absent .absent) (Or.inl rfl) (Or.inl rfl)⟩

/-- C10: loading a flat-only snapshot (bare index artifact, no raw
vector artifact) leaves the raw-vector buffer `None` even though the
loaded index holds vectors; a subsequent `add_to_index` therefore
computes the prospective threshold total as `0 + len(batch)` — counting
the loaded vectors as zero, so no upgrade fires whenever the batch alone
is below the threshold — and afterwards the buffer holds only the newly
added vectors while the index holds both. -/
theorem C10_flat_only_load_then_add :
    (∀ (m : Manager) (d : Nat) (vecs : List Vec),
      m.load_index (Snapshot.toLocation (.flatSnap (.flat d vecs)))
        = ({ m with index := some (.flat d vecs), embeddings := none }, none)) ∧
    (∀ (m : Manager) (d : Nat) (vecs batch : List Vec),
      m.index = some (.flat d vecs) → m.embeddings = none →
      dimsOk d batch = true → batch.length < m.min_data_size_for_ivf →
      m.add_to_index batch
        = ({ m with index := some (.flat d (vecs ++ batch)),
                    embeddings := some batch }, none)) := by
  constructor
  · intro m d vecs
    rfl
  · intro m d vecs batch hidx hemb hdims hlt
    unfold Manager.add_to_index
    rw [hidx]
    simp only [hemb]
    rw [if_neg (by omega)]
    unfold Manager.addPlain
    have hadd : Index.add (.flat d vecs) batch = .ok (.flat d (vecs ++ batch)) := by
      unfold Index.add
      rw [Index.dim, if_pos hdims]
    rw [hadd, hemb]

/-- Witness for C10: two loaded vectors plus one added vector meet the
threshold (2 + 1 ≥ 3), yet the manager stays flat and its buffer ends up
holding only the new vector. -/
theorem C10_witness :
    ((newManager 8 3 1 10 1).load_index
        (Snapshot.toLocation (.flatSnap (.flat 8
          [[0, 0, 0, 0, 0, 0, 0, 0], [1, 1, 1, 1, 1, 1, 1, 1]])))
      = ({ newManager 8 3 1 10 1 with
            index := some (.flat 8
              [[0, 0, 0, 0, 0, 0, 0, 0], [1, 1, 1, 1, 1, 1, 1, 1]]),
            embeddings := none }, none)) ∧
    (((newManager 8 3 1 10 1).load_index
        (Snapshot.toLocation (.flatSnap (.flat 8
          [[0, 0, 0, 0, 0, 0, 0, 0], [1, 1, 1, 1, 1, 1, 1, 1]])))).1.add_to_index
        [[2, 2, 2, 2, 2, 2, 2, 2]]
      = ({ newManager 8 3 1 10 1 with
            index := some (.flat 8
              [[0, 0, 0, 0, 0, 0, 0, 0], [1, 1, 1, 1, 1, 1, 1, 1],
               [2, 2, 2, 2, 2, 2, 2, 2]]),
            embeddings := some [[2, 2, 2, 2, 2, 2, 2, 2]] }, none)) := by
  constructor
  · exact C10_flat_only_load_then_add.1 (newManager 8 3 1 10 1) 8 _
  · exact C10_flat_only_load_then_add.2
      (((newManager 8 3 1 10 1).load_index
        (Snapshot.toLocation (.flatSnap (.flat 8
          [[0, 0, 0, 0, 0, 0, 0, 0], [1, 1, 1, 1, 1, 1, 1, 1]])))).1) 8
      [[0, 0, 0, 0, 0, 0, 0, 0], [1, 1, 1, 1, 1, 1, 1, 1]]
      [[2, 2, 2, 2, 2, 2, 2, 2]] (by decide) (by decide)
      (by decide) (by decide)

/-- C3 counterexample: a flat manager holding exactly one vector,
searched with `k = 2`, returns a row of length 2 — `k` entries, the
second being the `(FLT_MAX, -1)` padding FAISS emits — not
`total_count = 1` entries as claimed. -/
theorem C3_counterexample :
    (((newManager 8 2 1 10 1).init_index
        [[(0 : ℚ), 0, 0, 0, 0, 0, 0, 0]]).1).indexCount = 1 ∧
    (((newManager 8 2 1 10 1).init_index
        [[(0 : ℚ), 0, 0, 0, 0, 0, 0, 0]]).1).search ivfpqStub
        [[(1 : ℚ), 1, 1, 1, 1, 1, 1, 1]] 2
      = .ok [flatSearchRow [[(0 : ℚ), 0, 0, 0, 0, 0, 0, 0]] 2
              [(1 : ℚ), 1, 1, 1, 1, 1, 1, 1]] ∧
    (flatSearchRow [[(0 : ℚ), 0, 0, 0, 0, 0, 0, 0]] 2
        [(1 : ℚ), 1, 1, 1, 1, 1, 1, 1]).length = 2 ∧
    (flatSearchRow [[(0 : ℚ), 0, 0, 0, 0, 0, 0, 0]] 2
        [(1 : ℚ), 1, 1, 1, 1, 1, 1, 1]).drop
        (min 2 ([[(0 : ℚ), 0, 0, 0, 0, 0, 0, 0]] : List Vec).length)
      = List.replicate
          (2 - min 2 ([[(0 : ℚ), 0, 0, 0, 0, 0, 0, 0]] : List Vec).length)
          (floatMax, -1) ∧
    (2 : Nat) ≠ 1 := by
  refine ⟨rfl, rfl, flatSearchRow_length _ _ _, flatSearchRow_drop _ _ _,
    by decide⟩

/-- C3 amended: for the flat variant, `search` always returns exactly
`k` entries per query row; the first `min k total_count` entries are
genuine results (their positions point into the stored vectors) and the
remaining `k - min k total_count` entries are `(FLT_MAX, -1)` padding —
so when `total_count ≥ k` every entry is genuine, and when
`total_count < k` the row is padded rather than truncated. -/
theorem C3_search_pads_to_k (f : IvfpqSearchFn) (m : Manager) (d : Nat)
    (vecs qs : List Vec) (k : Nat)
    (hm : m.index = some (.flat d vecs)) (hq : dimsOk d qs = true) :
    m.search f qs k = .ok (qs.map (flatSearchRow vecs k)) ∧
    (qs.map (flatSearchRow vecs k)).length = qs.length ∧
    ∀ row ∈ qs.map (flatSearchRow vecs k),
      row.length = k ∧
      row.drop (min k vecs.length)
        = List.replicate (k - min k vecs.length) (floatMax, -1) ∧
      ∀ p ∈ row.take (min k vecs.length),
        ∃ (j : ℕ) (w : Vec), p.2 = (j : Int) ∧ vecs[j]? = some w := by
  refine ⟨?_, List.length_map _ _, ?_⟩
  · unfold Manager.search
    rw [hm]
    unfold Index.search
    simp only [Index.dim]
    rw [if_pos hq]
  · intro row hrow
    rw [List.mem_map] at hrow
    obtain ⟨q, hqmem, rfl⟩ := hrow
    refine ⟨flatSearchRow_length vecs q k, flatSearchRow_drop vecs q k, ?_⟩
    intro p hp
    obtain ⟨j, w, h1, h2, _⟩ := (flatSearchCorrect_holds vecs q k).2.1 p hp
    exact ⟨j, w, h1, h2⟩

/-- Witness for C3 amended: one stored vector, one query, `k = 5`. -/
theorem C3_witness :
    ((((newManager 2 10 1 1 1).init_index [[(0 : ℚ), 0]]).1).index
        = some (.flat 2 [[(0 : ℚ), 0]])) ∧
    dimsOk 2 [[(3 : ℚ), 4]] = true ∧
    ((((newManager 2 10 1 1 1).init_index [[(0 : ℚ), 0]]).1).search ivfpqStub
        [[(3 : ℚ), 4]] 5
      = .ok ([[(3 : ℚ), 4]].map (flatSearchRow [[(0 : ℚ), 0]] 5)) ∧
    ([[(3 : ℚ), 4]].map (flatSearchRow [[(0 : ℚ), 0]] 5)).length
        = ([[(3 : ℚ), 4]] : List Vec).length ∧
    ∀ row ∈ [[(3 : ℚ), 4]].map (flatSearchRow [[(0 : ℚ), 0]] 5),
      row.length = 5 ∧
      row.drop (min 5 ([[(0 : ℚ), 0]] : List Vec).length)
        = List.replicate (5 - min 5 ([[(0 : ℚ), 0]] : List Vec).length)
            (floatMax, -1) ∧
      ∀ p ∈ row.take (min 5 ([[(0 : ℚ), 0]] : List Vec).length),
        ∃ (j : ℕ) (w : Vec), p.2 = (j : Int)
          ∧ ([[(0 : ℚ), 0]] : List Vec)[j]? = some w) :=
  ⟨rfl, rfl,
    C3_search_pads_to_k ivfpqStub
      (((newManager 2 10 1 1 1).init_index [[(0 : ℚ), 0]]).1) 2
      [[(0 : ℚ), 0]] [[(3 : ℚ), 4]] 5 rfl rfl⟩

/-- C7 counterexample: a flat manager obtained by loading a flat-only
snapshot (raw-vector buffer `None`, one vector in the index) receives an
`add_to_index` of two width-3 vectors while configured for dimension 8
with threshold 2.  The call fails with the dimension error, but the
manager state is NOT unchanged: the rebuild path has already replaced
the one-vector flat index with an empty untrained clustered index before
the training step raised. -/
theorem C7_counterexample :
    (let mload := ((newManager 8 2 1 10 1).load_index
        (Snapshot.toLocation (Snapshot.flatSnap (Index.flat 8
          [[0, 0, 0, 0, 0, 0, 0, 0]])))).1
     let r := mload.add_to_index [[1, 2, 3], [4, 5, 6]]
     r.2 = some FaissErr.dimensionMismatch ∧
     r.1.index = some (Index.ivfpq 8 1 1 false []) ∧
     mload.indexCount = 1 ∧ r.1.indexCount = 0 ∧ r.1 ≠ mload) := by
  decide

/-- C7 amended: with the raw-vector buffer present and nonempty (as it
is after any successful `init_index`/`add_to_index`), an `add_to_index`
or `search` whose batch contains a row of width other than the
configured dimension fails with `dimensionMismatch` and leaves the
manager unchanged; but when the buffer is absent (`None`, as after a
flat-only load) and the wrong-width batch alone meets the threshold, the
rebuild path replaces the index with an empty untrained clustered index
before the dimension failure surfaces. -/
theorem C7_dimension_guard :
    (∀ (m : Manager) (idx : Index) (old batch : List Vec),
      m.index = some idx → m.embeddings = some old → old ≠ [] →
      idx.dim = m.embedding_dim → dimsOk m.embedding_dim old = true →
      (∃ v ∈ batch, v.length ≠ m.embedding_dim) →
      m.add_to_index batch = (m, some FaissErr.dimensionMismatch)) ∧
    (∀ (f : IvfpqSearchFn) (m : Manager) (idx : Index) (qs : List Vec)
        (k : Nat),
      m.index = some idx → (∃ q ∈ qs, q.length ≠ idx.dim) →
      m.search f qs k = .error FaissErr.dimensionMismatch) ∧
    (∀ (m : Manager) (d : Nat) (vecs batch : List Vec),
      m.index = some (.flat d vecs) → m.embeddings = none →
      m.min_data_size_for_ivf ≤ batch.length →
      (∃ v ∈ batch, v.length ≠ m.embedding_dim) →
      m.add_to_index batch
        = ({ m with
              index := some (.ivfpq m.embedding_dim m.nlist m.nbits false []) },
           some FaissErr.dimensionMismatch)) := by
  refine ⟨?_, ?_, ?_⟩
  · intro m idx old batch hidx hemb hold hdim holdw hbad
    have hb : dimsOk idx.dim batch = false := by
      rw [hdim]
      exact dimsOk_false hbad
    cases idx with
    | flat d vecs =>
        unfold Manager.add_to_index
        rw [hidx]
        simp only [hemb]
        by_cases hth : old.length + batch.length ≥ m.min_data_size_for_ivf
        · rw [if_pos hth]
          have hcc : npConcat old batch = .error FaissErr.dimensionMismatch := by
            unfold npConcat
            rw [if_neg]
            intro hall
            rw [List.all_eq_true] at hall
            obtain ⟨u, hu⟩ := List.exists_mem_of_ne_nil old hold
            have hu1 := hall u hu
            rw [List.all_eq_true] at hu1
            obtain ⟨v, hv, hvne⟩ := hbad
            have h2 := decide_eq_true_eq.mp (hu1 v hv)
            have h3 : u.length = m.embedding_dim := by
              rw [dimsOk, List.all_eq_true] at holdw
              exact decide_eq_true_eq.mp (holdw u hu)
            exact hvne (h2 ▸ h3)
          rw [hcc]
        · rw [if_neg hth]
          have hadd : Index.add (.flat d vecs) batch
              = .error FaissErr.dimensionMismatch := by
            unfold Index.add
            rw [if_neg (by rw [hb]; intro h; cases h)]
          simp only [Manager.addPlain, hadd]
    | ivfpq d nl nb tr vecs =>
        have hadd : Index.add (.ivfpq d nl nb tr vecs) batch
            = .error FaissErr.dimensionMismatch := by
          unfold Index.add
          rw [if_neg (by rw [hb]; intro h; cases h)]
        simp only [Manager.add_to_index, hidx, Manager.addPlain, hadd]
  · intro f m idx qs k hidx hbad
    have hb : dimsOk idx.dim qs = false := dimsOk_false hbad
    cases idx <;> simp [Manager.search, Index.search, hidx, hb]
  · intro m d vecs batch hidx hemb hth hbad
    unfold Manager.add_to_index
    rw [hidx]
    simp only [hemb]
    rw [if_pos (by omega)]
    rw [init_index_eq]
    rw [if_neg (by omega),
      if_neg (by rw [dimsOk_false hbad]; intro h; cases h)]
    rw [hemb]

/-- Witness for C7 amended: a buffer-holding flat manager rejects a
width-3 batch unchanged, and a search with a width-3 query errors. -/
theorem C7_witness :
    ((((newManager 2 5 1 1 1).init_index [[(0 : ℚ), 0]]).1.index
        = some (.flat 2 [[(0 : ℚ), 0]])) ∧
      (((newManager 2 5 1 1 1).init_index [[(0 : ℚ), 0]]).1.embeddings
        = some [[(0 : ℚ), 0]]) ∧
      ([[(0 : ℚ), 0]] : List Vec) ≠ [] ∧
      Index.dim (.flat 2 [[(0 : ℚ), 0]])
        = (((newManager 2 5 1 1 1).init_index
            [[(0 : ℚ), 0]]).1).embedding_dim ∧
      dimsOk (((newManager 2 5 1 1 1).init_index
          [[(0 : ℚ), 0]]).1).embedding_dim [[(0 : ℚ), 0]] = true ∧
      (∃ v ∈ ([[(1 : ℚ), 2, 3]] : List Vec), v.length
        ≠ (((newManager 2 5 1 1 1).init_index
            [[(0 : ℚ), 0]]).1).embedding_dim)) ∧
    (((newManager 2 5 1 1 1).init_index [[(0 : ℚ), 0]]).1.add_to_index
        [[(1 : ℚ), 2, 3]]
      = (((newManager 2 5 1 1 1).init_index [[(0 : ℚ), 0]]).1,
         some FaissErr.dimensionMismatch)) ∧
    (((newManager 2 5 1 1 1).init_index [[(0 : ℚ), 0]]).1.search ivfpqStub
        [[(1 : ℚ), 2, 3]] 1
      = .error FaissErr.dimensionMismatch) :=
  ⟨⟨rfl, rfl, by decide, rfl, rfl, by decide⟩,
    C7_dimension_guard.1 (((newManager 2 5 1 1 1).init_index
        [[(0 : ℚ), 0]]).1) (.flat 2 [[(0 : ℚ), 0]]) [[(0 : ℚ), 0]]
      [[(1 : ℚ), 2, 3]] rfl rfl (by decide) rfl rfl (by decide),
    C7_dimension_guard.2.1 ivfpqStub (((newManager 2 5 1 1 1).init_index
        [[(0 : ℚ), 0]]).1) (.flat 2 [[(0 : ℚ), 0]]) [[(1 : ℚ), 2, 3]] 1
      rfl (by decide)⟩

/-- C2 counterexample: an error-free `init` / `save` / `load` sequence
on a flat manager ends with one vector in the index and an empty
(`None`) raw-vector buffer — the index count and the paired vector store
count disagree. -/
theorem C2_counterexample :
    (let minit := ((newManager 8 2 1 10 1).init_index
        [[(0 : ℚ), 0, 0, 0, 0, 0, 0, 0]]).1
     let mload := ((newManager 8 2 1 10 1).load_index
        (Snapshot.toLocation (Snapshot.flatSnap (Index.flat 8
          [[(0 : ℚ), 0, 0, 0, 0, 0, 0, 0]])))).1
     minit.save_index = Except.ok (Snapshot.flatSnap (Index.flat 8
          [[(0 : ℚ), 0, 0, 0, 0, 0, 0, 0]])) ∧
     mload.indexCount = 1 ∧ mload.storeCount = 0 ∧
     mload.indexCount ≠ mload.storeCount) := by
  decide

/-- C2 amended: along every error-free sequence of `init_index`,
`add_to_index` and `save_index` calls from a fresh manager, the index
vector count equals the raw-vector buffer count (loading a flat-only
snapshot breaks the equality by emptying the buffer); and once a manager
holds the clustered variant, no `add_to_index` ever reverts it to the
flat variant. -/
theorem C2_count_invariant_and_no_revert :
    (∀ (d T nl np nb : Nat) (ops : List Op) (m : Manager),
      runOk (newManager d T nl np nb) ops = some m →
      m.indexCount = m.storeCount) ∧
    (∀ (m : Manager) (b : List Vec),
      m.isClustered = true → ((m.add_to_index b).1).isClustered = true) := by
  constructor
  · intro d T nl np nb ops m h
    exact (runOk_inv ops _ m (newManager_inv d T nl np nb) h).1
  · intro m b h
    exact clustered_stays_clustered m b h

/-- Witness for C2 amended: a three-call run (init, add, save) keeps the
counts equal, and a clustered manager stays clustered across an add. -/
theorem C2_witness :
    (runOk (newManager 2 10 1 1 1)
        [Op.initOp [[(0 : ℚ), 0]], Op.addOp [[(1 : ℚ), 1]], Op.saveOp]
      = some { embedding_dim := 2, min_data_size_for_ivf := 10, nlist := 1,
               nprobe := 1, nbits := 1,
               index := some (.flat 2 [[(0 : ℚ), 0], [(1 : ℚ), 1]]),
               embeddings := some [[(0 : ℚ), 0], [(1 : ℚ), 1]] }) ∧
    (({ embedding_dim := 2, min_data_size_for_ivf := 10, nlist := 1,
        nprobe := 1, nbits := 1,
        index := some (.flat 2 [[(0 : ℚ), 0], [(1 : ℚ), 1]]),
        embeddings := some [[(0 : ℚ), 0], [(1 : ℚ), 1]] } : Manager).indexCount
      = ({ embedding_dim := 2, min_data_size_for_ivf := 10, nlist := 1,
           nprobe := 1, nbits := 1,
           index := some (.flat 2 [[(0 : ℚ), 0], [(1 : ℚ), 1]]),
           embeddings := some [[(0 : ℚ), 0], [(1 : ℚ), 1]] } : Manager).storeCount) ∧
    ((((newManager 2 1 1 1 1).init_index [[(5 : ℚ), 5]]).1).isClustered
      = true) ∧
    (((((newManager 2 1 1 1 1).init_index [[(5 : ℚ), 5]]).1).add_to_index
        [[(2 : ℚ), 2]]).1).isClustered = true :=
  ⟨by decide,
   C2_count_invariant_and_no_revert.1 2 10 1 1 1
     [Op.initOp [[(0 : ℚ), 0]], Op.addOp [[(1 : ℚ), 1]], Op.saveOp]
     { embedding_dim := 2, min_data_size_for_ivf := 10, nlist := 1,
       nprobe := 1, nbits := 1,
       index := some (.flat 2 [[(0 : ℚ), 0], [(1 : ℚ), 1]]),
       embeddings := some [[(0 : ℚ), 0], [(1 : ℚ), 1]] } (by decide),
   rfl,
   C2_count_invariant_and_no_revert.2
     (((newManager 2 1 1 1 1).init_index [[(5 : ℚ), 5]]).1)
     [[(2 : ℚ), 2]] rfl⟩

lemma add_crossing_rebuild {m : Manager} {d : Nat} {ivecs old batch : List Vec}
    (hidx : m.index = some (.flat d ivecs)) (hemb : m.embeddings = some old)
    (holdw : dimsOk m.embedding_dim old = true)
    (hbw : dimsOk m.embedding_dim batch = true)
    (hge : m.min_data_size_for_ivf ≤ old.length + batch.length) :
    m.add_to_index batch
      = ({ m with
            index := some (.ivfpq m.embedding_dim m.nlist m.nbits true
              (old ++ batch)),
            embeddings := some (old ++ batch) }, none) := by
  unfold Manager.add_to_index
  rw [hidx]
  simp only [hemb]
  rw [if_pos (by omega)]
  have hcc : npConcat old batch = .ok (old ++ batch) := by
    unfold npConcat
    rw [if_pos]
    rw [List.all_eq_true]
    intro u hu
    rw [List.all_eq_true]
    intro v hv
    have h1 : u.length = m.embedding_dim := by
      rw [dimsOk, List.all_eq_true] at holdw
      exact decide_eq_true_eq.mp (holdw u hu)
    have h2 : v.length = m.embedding_dim := by
      rw [dimsOk, List.all_eq_true] at hbw
      exact decide_eq_true_eq.mp (hbw v hv)
    exact decide_eq_true_eq.mpr (h1.trans h2.symm)
  simp only [hcc]
  rw [init_index_eq]
  have hall : dimsOk m.embedding_dim (old ++ batch) = true := by
    rw [dimsOk] at holdw hbw ⊢
    rw [List.all_append, holdw, hbw]
    rfl
  rw [if_neg (by rw [List.length_append]; omega), if_pos hall]

/-- C1: index variant selection is a pure function of the vector count —
below the threshold `create_index` builds `IndexFlatL2`, at or above it
`IndexIVFPQ` — and on a flat manager an `add_to_index` whose prospective
total (buffer count plus batch size) reaches the threshold rebuilds,
within that same call, a trained clustered index over the full dataset
(old vectors followed by the new ones). -/
theorem C1_variant_selection_and_upgrade :
    (∀ (m : Manager) (n : Nat),
      (n < m.min_data_size_for_ivf →
        m.create_index n = .flat m.embedding_dim []) ∧
      (m.min_data_size_for_ivf ≤ n →
        m.create_index n = .ivfpq m.embedding_dim m.nlist m.nbits false [])) ∧
    (∀ (m : Manager) (d : Nat) (ivecs old batch : List Vec),
      m.index = some (.flat d ivecs) → m.embeddings = some old →
      dimsOk m.embedding_dim old = true →
      dimsOk m.embedding_dim batch = true →
      old.length < m.min_data_size_for_ivf →
      m.min_data_size_for_ivf ≤ old.length + batch.length →
      m.add_to_index batch
        = ({ m with
              index := some (.ivfpq m.embedding_dim m.nlist m.nbits true
                (old ++ batch)),
              embeddings := some (old ++ batch) }, none)) := by
  constructor
  · intro m n
    constructor
    · intro h
      unfold Manager.create_index
      rw [if_pos h]
    · intro h
      unfold Manager.create_index
      rw [if_neg (by omega)]
  · intro m d ivecs old batch h1 h2 h3 h4 _ h6
    exact add_crossing_rebuild h1 h2 h3 h4 h6

/-- Witness for C1: threshold 2, one stored vector, a one-vector batch
crosses and yields the trained clustered index over both vectors. -/
theorem C1_witness :
    ((1 < (newManager 8 2 1 10 1).min_data_size_for_ivf ∧
      (newManager 8 2 1 10 1).create_index 1 = .flat 8 []) ∧
     ((newManager 8 2 1 10 1).min_data_size_for_ivf ≤ 2 ∧
      (newManager 8 2 1 10 1).create_index 2 = .ivfpq 8 1 1 false [])) ∧
    (((newManager 8 2 1 10 1).init_index
        [[(0 : ℚ), 0, 0, 0, 0, 0, 0, 0]]).1.add_to_index
        [[(1 : ℚ), 1, 1, 1, 1, 1, 1, 1]]
      = ({ embedding_dim := 8, min_data_size_for_ivf := 2, nlist := 1,
           nprobe := 10, nbits := 1,
           index := some (.ivfpq 8 1 1 true
             [[(0 : ℚ), 0, 0, 0, 0, 0, 0, 0],
              [(1 : ℚ), 1, 1, 1, 1, 1, 1, 1]]),
           embeddings := some
             [[(0 : ℚ), 0, 0, 0, 0, 0, 0, 0],
              [(1 : ℚ), 1, 1, 1, 1, 1, 1, 1]] }, none)) :=
  ⟨⟨⟨by decide, (C1_variant_selection_and_upgrade.1 (newManager 8 2 1 10 1)
        1).1 (by decide)⟩,
    ⟨by decide, (C1_variant_selection_and_upgrade.1 (newManager 8 2 1 10 1)
        2).2 (by decide)⟩⟩,
   C1_variant_selection_and_upgrade.2
     (((newManager 8 2 1 10 1).init_index [[(0 : ℚ), 0, 0, 0, 0, 0, 0, 0]]).1)
     8 [[(0 : ℚ), 0, 0, 0, 0, 0, 0, 0]] [[(0 : ℚ), 0, 0, 0, 0, 0, 0, 0]]
     [[(1 : ℚ), 1, 1, 1, 1, 1, 1, 1]] rfl rfl (by decide) (by decide)
     (by decide) (by decide)⟩

/-- C9: across the threshold-crossing rebuild, insertion positions are
stable — the rebuild raises no error, the resulting clustered index
holds exactly the old vectors followed by the new ones, so each old
vector keeps its position `0..n-1` and the new vectors take positions
`n..n+m-1`. -/
theorem C9_positions_stable_across_rebuild (m : Manager) (d : Nat)
    (old batch : List Vec)
    (hidx : m.index = some (.flat d old)) (hemb : m.embeddings = some old)
    (holdw : dimsOk m.embedding_dim old = true)
    (hbw : dimsOk m.embedding_dim batch = true)
    (_hlt : old.length < m.min_data_size_for_ivf)
    (hge : m.min_data_size_for_ivf ≤ old.length + batch.length) :
    (m.add_to_index batch).2 = none ∧
    (∃ i : Index, (m.add_to_index batch).1.index = some i ∧
      i.isIvfpq = true ∧ i.vecs = old ++ batch) ∧
    (∀ j : ℕ, j < old.length → (old ++ batch)[j]? = old[j]?) ∧
    (∀ j : ℕ, j < batch.length →
      (old ++ batch)[old.length + j]? = batch[j]?) := by
  have h := add_crossing_rebuild hidx hemb holdw hbw hge
  refine ⟨by rw [h], ⟨.ivfpq m.embedding_dim m.nlist m.nbits true (old ++ batch),
    by rw [h], rfl, rfl⟩, ?_, ?_⟩
  · intro j hj
    rw [List.getElem?_append]
    rw [if_pos hj]
  · intro j hj
    rw [List.getElem?_append, if_neg (by omega)]
    congr 1
    omega

/-- Witness for C9: threshold 3, two stored vectors, one added vector. -/
theorem C9_witness :
    ((((newManager 8 3 1 10 1).init_index
        [[(0 : ℚ), 0, 0, 0, 0, 0, 0, 0],
         [(1 : ℚ), 1, 1, 1, 1, 1, 1, 1]]).1).index
      = some (.flat 8 [[(0 : ℚ), 0, 0, 0, 0, 0, 0, 0],
                       [(1 : ℚ), 1, 1, 1, 1, 1, 1, 1]])) ∧
    (((((newManager 8 3 1 10 1).init_index
        [[(0 : ℚ), 0, 0, 0, 0, 0, 0, 0],
         [(1 : ℚ), 1, 1, 1, 1, 1, 1, 1]]).1).add_to_index
        [[(2 : ℚ), 2, 2, 2, 2, 2, 2, 2]]).2 = none ∧
    (∃ i : Index, ((((newManager 8 3 1 10 1).init_index
        [[(0 : ℚ), 0, 0, 0, 0, 0, 0, 0],
         [(1 : ℚ), 1, 1, 1, 1, 1, 1, 1]]).1).add_to_index
        [[(2 : ℚ), 2, 2, 2, 2, 2, 2, 2]]).1.index = some i ∧
      i.isIvfpq = true ∧
      i.vecs = [[(0 : ℚ), 0, 0, 0, 0, 0, 0, 0],
                [(1 : ℚ), 1, 1, 1, 1, 1, 1, 1]]
        ++ [[(2 : ℚ), 2, 2, 2, 2, 2, 2, 2]]) ∧
    (∀ j : ℕ, j < ([[(0 : ℚ), 0, 0, 0, 0, 0, 0, 0],
                    [(1 : ℚ), 1, 1, 1, 1, 1, 1, 1]] : List Vec).length →
      ([[(0 : ℚ), 0, 0, 0, 0, 0, 0, 0], [(1 : ℚ), 1, 1, 1, 1, 1, 1, 1]]
        ++ [[(2 : ℚ), 2, 2, 2, 2, 2, 2, 2]] : List Vec)[j]?
        = ([[(0 : ℚ), 0, 0, 0, 0, 0, 0, 0],
            [(1 : ℚ), 1, 1, 1, 1, 1, 1, 1]] : List Vec)[j]?) ∧
    (∀ j : ℕ, j < ([[(2 : ℚ), 2, 2, 2, 2, 2, 2, 2]] : List Vec).length →
      ([[(0 : ℚ), 0, 0, 0, 0, 0, 0, 0], [(1 : ℚ), 1, 1, 1, 1, 1, 1, 1]]
        ++ [[(2 : ℚ), 2, 2, 2, 2, 2, 2, 2]] : List Vec)[
          ([[(0 : ℚ), 0, 0, 0, 0, 0, 0, 0],
            [(1 : ℚ), 1, 1, 1, 1, 1, 1, 1]] : List Vec).length + j]?
        = ([[(2 : ℚ), 2, 2, 2, 2, 2, 2, 2]] : List Vec)[j]?)) :=
  ⟨rfl,
   C9_positions_stable_across_rebuild
     (((newManager 8 3 1 10 1).init_index
        [[(0 : ℚ), 0, 0, 0, 0, 0, 0, 0],
         [(1 : ℚ), 1, 1, 1, 1, 1, 1, 1]]).1) 8
     [[(0 : ℚ), 0, 0, 0, 0, 0, 0, 0], [(1 : ℚ), 1, 1, 1, 1, 1, 1, 1]]
     [[(2 : ℚ), 2, 2, 2, 2, 2, 2, 2]] rfl rfl (by decide) (by decide)
     (by decide) (by decide)⟩

lemma reachable_clustered_has_buffer (d T nl np nb : Nat) (ops : List Op)
    (m : Manager) (h : runOk (newManager d T nl np nb) ops = some m) :
    m.isClustered = true → m.embeddings ≠ none :=
  (runOk_inv ops _ m (newManager_inv d T nl np nb) h).2.2.2

/-- C5: saving an initialized manager and loading the resulting snapshot
into a fresh manager (same configured `nprobe`) succeeds and yields a
manager whose `search` output on every query set and every `k` is
identical to the original manager's output — exactly, for the flat
variant and for the clustered variant alike (the clustered state,
index and raw vectors, is restored bit for bit).  The clustered case
assumes the manager carries its raw-vector buffer, which
`reachable_clustered_has_buffer` shows holds for every manager the API
produces. -/
theorem C5_save_load_round_trip (f : IvfpqSearchFn) (m m0 : Manager)
    (idx : Index) (snap : Snapshot)
    (hm : m.index = some idx)
    (hwf : idx.isIvfpq = true → m.embeddings ≠ none)
    (hsave : m.save_index = .ok snap)
    (hnp : m0.nprobe = m.nprobe) :
    (m0.load_index snap.toLocation).2 = none ∧
    ∀ (qs : List Vec) (k : Nat),
      ((m0.load_index snap.toLocation).1).search f qs k
        = m.search f qs k := by
  unfold Manager.save_index at hsave
  rw [hm] at hsave
  cases idx with
  | flat d vecs =>
      cases hsave
      constructor
      · rfl
      · intro qs k
        simp [Manager.search, Index.search, Manager.load_index,
          Manager.loadFallback, Snapshot.toLocation, hm]
  | ivfpq d nl nb tr vecs =>
      cases hembs : m.embeddings with
      | none => exact absurd hembs (hwf rfl)
      | some e =>
          cases hsave
          rw [hembs]
          constructor
          · rfl
          · intro qs k
            simp [Manager.search, Index.search, Manager.load_index,
              Manager.loadFallback, Snapshot.toLocation, hm, hnp]

/-- Witness for C5: a one-vector flat manager saved and loaded into a
fresh manager with the same configuration. -/
theorem C5_witness :
    ((((newManager 2 5 1 1 1).init_index [[(0 : ℚ), 0]]).1).index
      = some (.flat 2 [[(0 : ℚ), 0]])) ∧
    ((Index.flat 2 [[(0 : ℚ), 0]]).isIvfpq = true →
      (((newManager 2 5 1 1 1).init_index [[(0 : ℚ), 0]]).1).embeddings
        ≠ none) ∧
    ((((newManager 2 5 1 1 1).init_index [[(0 : ℚ), 0]]).1).save_index
      = .ok (.flatSnap (.flat 2 [[(0 : ℚ), 0]]))) ∧
    ((newManager 2 5 1 1 1).nprobe
      = (((newManager 2 5 1 1 1).init_index [[(0 : ℚ), 0]]).1).nprobe) ∧
    (((newManager 2 5 1 1 1).load_index
        (Snapshot.toLocation (.flatSnap (.flat 2 [[(0 : ℚ), 0]])))).2
      = none ∧
    ∀ (qs : List Vec) (k : Nat),
      (((newManager 2 5 1 1 1).load_index
        (Snapshot.toLocation (.flatSnap (.flat 2 [[(0 : ℚ), 0]])))).1).search
          ivfpqStub qs k
        = (((newManager 2 5 1 1 1).init_index [[(0 : ℚ), 0]]).1).search
          ivfpqStub qs k) :=
  ⟨rfl, by decide, rfl, rfl,
    C5_save_load_round_trip ivfpqStub
      (((newManager 2 5 1 1 1).init_index [[(0 : ℚ), 0]]).1)
      (newManager 2 5 1 1 1) (.flat 2 [[(0 : ℚ), 0]])
      (.flatSnap (.flat 2 [[(0 : ℚ), 0]])) rfl (by decide) rfl rfl⟩

/-- C4: on the flat variant, `search` is exact brute-force squared
Euclidean distance — each query row yields the true best candidates in
ascending (distance, insertion position) order (`FlatSearchCorrect`:
sortedness, genuineness of every entry, distinct positions, and
optimality against every non-returned stored vector); and for every
already-inserted vector `w`, searching for `w` with `k = 1` returns
distance `0` and the position of a stored vector equal to `w` itself. -/
theorem C4_flat_exact_search (f : IvfpqSearchFn) (m : Manager) (d : Nat)
    (vecs qs : List Vec) (k : Nat)
    (hm : m.index = some (.flat d vecs)) (hw : dimsOk d vecs = true)
    (hq : dimsOk d qs = true) :
    m.search f qs k = .ok (qs.map (flatSearchRow vecs k)) ∧
    (∀ q ∈ qs, FlatSearchCorrect vecs q k) ∧
    (∀ (p : ℕ) (w : Vec), vecs[p]? = some w →
      ∃ (i : ℕ) (v : Vec),
        (flatSearchRow vecs 1 w).head? = some (0, (i : Int)) ∧
        vecs[i]? = some v ∧ v = w) := by
  refine ⟨?_, fun q _ => flatSearchCorrect_holds vecs q k,
    fun p w hp => flat_self_similarity hw hp⟩
  unfold Manager.search
  rw [hm]
  unfold Index.search
  simp only [Index.dim]
  rw [if_pos hq]

/-- Witness for C4: two stored vectors `[0,0]` and `[3,4]`, queried with
the stored vector `[0,0]` and `k = 1`. -/
theorem C4_witness :
    ((((newManager 2 10 1 1 1).init_index
        [[(0 : ℚ), 0], [(3 : ℚ), 4]]).1).index
      = some (.flat 2 [[(0 : ℚ), 0], [(3 : ℚ), 4]])) ∧
    dimsOk 2 ([[(0 : ℚ), 0], [(3 : ℚ), 4]] : List Vec) = true ∧
    dimsOk 2 ([[(0 : ℚ), 0]] : List Vec) = true ∧
    ((((newManager 2 10 1 1 1).init_index
        [[(0 : ℚ), 0], [(3 : ℚ), 4]]).1).search ivfpqStub
        [[(0 : ℚ), 0]] 1
      = .ok (([[(0 : ℚ), 0]] : List Vec).map
          (flatSearchRow [[(0 : ℚ), 0], [(3 : ℚ), 4]] 1)) ∧
    (∀ q ∈ ([[(0 : ℚ), 0]] : List Vec),
      FlatSearchCorrect [[(0 : ℚ), 0], [(3 : ℚ), 4]] q 1) ∧
    (∀ (p : ℕ) (w : Vec),
      ([[(0 : ℚ), 0], [(3 : ℚ), 4]] : List Vec)[p]? = some w →
      ∃ (i : ℕ) (v : Vec),
        (flatSearchRow [[(0 : ℚ), 0], [(3 : ℚ), 4]] 1 w).head?
          = some (0, (i : Int)) ∧
        ([[(0 : ℚ), 0], [(3 : ℚ), 4]] : List Vec)[i]? = some v ∧ v = w)) :=
  ⟨rfl, rfl, rfl,
    C4_flat_exact_search ivfpqStub
      (((newManager 2 10 1 1 1).init_index
        [[(0 : ℚ), 0], [(3 : ℚ), 4]]).1) 2
      [[(0 : ℚ), 0], [(3 : ℚ), 4]] [[(0 : ℚ), 0]] 1 rfl rfl rfl⟩
